import Mathlib

/-!
# Verification of the personal-expense-manager core (`src/main.py`)

Shallow embedding of the ledger + reporting engine: the record model
(`Expense`, `RecurringExpense`, `Category`), the ledger operations of
`ExpenseManager`, the two report generators, and the persistence
initialisation/loading logic.  Python floats are modelled as rationals
(the code only adds, subtracts, compares and takes absolute values, so
the model is exact on exactly-representable inputs); Python `None` for
the optional `date` argument is modelled as the empty string, which the
source treats identically (both are falsy in `date if date else ...`).
All console `print` output that carries information (success/failure of
an operation, the deleted entity) is modelled as explicit message
values; file I/O is modelled as explicit file-state values.
-/

/-- The expense entity of `class Expense` (`src/main.py` lines 7-12):
amount (float), category, description, date. -/
structure Expense where
  amount : ℚ
  category : String
  description : String
  date : String
deriving DecidableEq, Repr

/-- Embeds `Expense.__init__` (lines 8-12).  `float(amount)` is the identity on
the rational model; `date if date else datetime.now().strftime(...)`
picks `today` when `date` is falsy (`None`/`""`, both modelled as `""`). -/
def Expense.init (amount : ℚ) (category description date today : String) : Expense :=
  { amount := amount, category := category, description := description,
    date := if date = "" then today else date }

/-- A record held by the ledger: either a plain `Expense` or a
`RecurringExpense` (an `Expense` plus a `frequency` string).  The
source uses inheritance; the discriminant is explicit here, mirroring
the `'type'` tag used for serialization and `isinstance` dispatch. -/
inductive ExpenseRecord where
  | regular (e : Expense)
  | recurring (e : Expense) (frequency : String)
deriving DecidableEq, Repr

/-- Embeds `RecurringExpense.__init__` (lines 64-66): calls the base
constructor and stores `frequency` verbatim (default `"monthly"`). -/
def RecurringExpense.init (amount : ℚ) (category description date today frequency : String) :
    ExpenseRecord :=
  .recurring (Expense.init amount category description date today) frequency

/-- Embeds `get_amount` (line 15 / inherited). -/
def ExpenseRecord.get_amount : ExpenseRecord → ℚ
  | .regular e => e.amount
  | .recurring e _ => e.amount

/-- Embeds `get_category` (line 21 / inherited). -/
def ExpenseRecord.get_category : ExpenseRecord → String
  | .regular e => e.category
  | .recurring e _ => e.category

/-- Embeds `get_description` (line 27 / inherited). -/
def ExpenseRecord.get_description : ExpenseRecord → String
  | .regular e => e.description
  | .recurring e _ => e.description

/-- Embeds `get_date` (line 33 / inherited). -/
def ExpenseRecord.get_date : ExpenseRecord → String
  | .regular e => e.date
  | .recurring e _ => e.date

/-- Embeds `RecurringExpense.get_frequency` (line 68); `none` on a regular
expense, which has no such attribute. -/
def ExpenseRecord.get_frequency : ExpenseRecord → Option String
  | .regular _ => none
  | .recurring _ f => some f

/-- The flat dictionary produced by `to_dict` (lines 39-47 and 74-78):
field-for-field values plus the `'type'` discriminant; `'frequency'` is
present only on recurring records (`none` models an absent key). -/
structure ExpenseDict where
  amount : ℚ
  category : String
  description : String
  date : String
  type : String
  frequency : Option String
deriving DecidableEq, Repr

/-- Embeds `Expense.to_dict` (lines 39-47) and `RecurringExpense.to_dict`
(lines 74-78): the recurring variant extends the base dict with
`frequency` and overwrites `type` with `'recurring'`. -/
def ExpenseRecord.to_dict : ExpenseRecord → ExpenseDict
  | .regular e =>
    { amount := e.amount, category := e.category, description := e.description,
      date := e.date, type := "regular", frequency := none }
  | .recurring e f =>
    { amount := e.amount, category := e.category, description := e.description,
      date := e.date, type := "recurring", frequency := some f }

/-- Embeds `Expense.from_dict` (lines 49-57): rebuilds through the constructor
from `amount`, `category`, `description`, `date`. -/
def Expense.from_dict (d : ExpenseDict) (today : String) : ExpenseRecord :=
  .regular (Expense.init d.amount d.category d.description d.date today)

/-- Embeds `RecurringExpense.from_dict` (lines 80-89): like the base, plus
`data.get('frequency', 'monthly')`. -/
def RecurringExpense.from_dict (d : ExpenseDict) (today : String) : ExpenseRecord :=
  .recurring (Expense.init d.amount d.category d.description d.date today)
    (d.frequency.getD "monthly")

/-- The per-item dispatch of `_load_expenses` (lines 231-235):
`item.get('type') == 'recurring'` selects the recurring deserializer,
everything else the regular one. -/
def loadExpenseItem (d : ExpenseDict) (today : String) : ExpenseRecord :=
  if d.type = "recurring" then RecurringExpense.from_dict d today
  else Expense.from_dict d today

/-- Embeds `class Category` (lines 95-98): name and float budget limit. -/
structure Category where
  name : String
  budget_limit : ℚ
deriving DecidableEq, Repr

/-- Embeds `Category.__init__` (lines 96-98); `float(budget_limit)` is the
identity on the rational model. -/
def Category.init (name : String) (budget_limit : ℚ) : Category :=
  { name := name, budget_limit := budget_limit }

/-- The flat dictionary of `Category.to_dict` (lines 112-116). -/
structure CategoryDict where
  name : String
  budget_limit : ℚ
deriving DecidableEq, Repr

/-- Embeds `Category.to_dict` (lines 112-116). -/
def Category.to_dict (c : Category) : CategoryDict :=
  { name := c.name, budget_limit := c.budget_limit }

/-- Embeds `Category.from_dict` (lines 118-123): rebuilds through the
constructor. -/
def Category.from_dict (d : CategoryDict) : Category :=
  Category.init d.name d.budget_limit

/-- Python's built-in `sum(...)` over a float generator: a left fold
starting from `0`. -/
def pySum (l : List ℚ) : ℚ := l.foldl (· + ·) 0

/-- Python's `str.lower()`, character by character (exact on the ASCII
names this program handles). -/
def pyLower (s : String) : String := String.mk (s.data.map Char.toLower)

/-- Whitespace as stripped by Python's `str.strip()`. -/
def isSpaceChar (c : Char) : Bool := c = ' ' ∨ c = '\t' ∨ c = '\n' ∨ c = '\r'

/-- Python's `str.strip()`: drop whitespace from both ends. -/
def pyStrip (s : String) : String :=
  String.mk (((s.data.dropWhile isSpaceChar).reverse.dropWhile isSpaceChar).reverse)

/-- The frequency sanitisation of the recurring-expense input path
(`add_recurring_expense_ui`, lines 458-461): lowercase/strip the raw
input and replace anything outside the closed enumeration by
`'monthly'`.  This happens in the UI, before the constructor is called. -/
def uiFrequency (raw : String) : String :=
  let f := pyLower (pyStrip raw)
  if f = "daily" ∨ f = "weekly" ∨ f = "monthly" ∨ f = "yearly" then f else "monthly"

/-- A single step of the dict-building pattern
`d[cat] = d.get(cat, 0) + amount` used by `get_category_summary`
(lines 322-325) and `MonthlyReport.generate_report` (lines 148-151).
Python dicts preserve insertion order: an existing key is updated in
place, a new key is appended at the end. -/
def dictAdd (acc : List (String × ℚ)) (key : String) (amount : ℚ) : List (String × ℚ) :=
  if acc.any (fun p => p.1 = key) then
    acc.map (fun p => if p.1 = key then (p.1, p.2 + amount) else p)
  else acc ++ [(key, amount)]

/-- Embeds `ExpenseManager.get_category_summary` (lines 320-326): one pass over
the expenses, accumulating per-category sums in insertion order. -/
def get_category_summary (expenses : List ExpenseRecord) : List (String × ℚ) :=
  expenses.foldl (fun acc e => dictAdd acc e.get_category e.get_amount) []

/-- Embeds `ExpenseManager.get_total_spending` (lines 316-318):
`sum(exp.get_amount() for exp in self.expenses)`. -/
def get_total_spending (expenses : List ExpenseRecord) : ℚ :=
  pySum (expenses.map (fun e => e.get_amount))

/-- Embeds `ExpenseManager.get_expenses_by_category` (lines 312-314): exact
case-sensitive match on the category name. -/
def get_expenses_by_category (expenses : List ExpenseRecord) (category : String) :
    List ExpenseRecord :=
  expenses.filter (fun e => e.get_category = category)

/-- The informative console message printed by `delete_expense`:
either the success line naming the deleted entity or the
`"Invalid expense index!"` error. -/
inductive DeleteMessage where
  | deleted (e : ExpenseRecord)
  | invalidIndex
deriving DecidableEq, Repr

/-- The complete observable outcome of `ExpenseManager.delete_expense`:
the expense list after the call, the content written to the expense
file by `_save_expenses` (`none` when no save happened), the message
printed, and the Python return value.  The method body (lines 281-288)
has no `return` statement, so it returns `None` on every path. -/
structure DeleteOutcome where
  expenses : List ExpenseRecord
  savedFile : Option (List ExpenseRecord)
  message : DeleteMessage
  returned : Option ExpenseRecord
deriving DecidableEq, Repr

/-- Embeds `ExpenseManager.delete_expense` (lines 281-288): guard
`0 <= index < len(self.expenses)`, `pop(index)` on success followed by
`_save_expenses()`, error message otherwise.  The index is an `Int`
because the caller may pass any integer (the guard rejects negatives
before Python's negative indexing could apply). -/
def delete_expense (expenses : List ExpenseRecord) (index : Int) : DeleteOutcome :=
  if h : 0 ≤ index ∧ index < (expenses.length : Int) then
    let newExpenses := expenses.eraseIdx index.toNat
    { expenses := newExpenses, savedFile := some newExpenses,
      message := .deleted (expenses.get ⟨index.toNat, by omega⟩), returned := none }
  else
    { expenses := expenses, savedFile := none, message := .invalidIndex, returned := none }

/-- Outcome of `ExpenseManager.add_category`: the category list after
the call, the content written to the categories file (`none` when no
save happened), and whether the duplicate error was reported. -/
structure AddCategoryOutcome where
  categories : List Category
  savedFile : Option (List Category)
  duplicate : Bool
deriving DecidableEq, Repr

/-- Embeds `ExpenseManager.add_category` (lines 328-339): scan the existing
categories for a case-insensitive name match; report the duplicate and
return without mutating on a hit, otherwise append a fresh `Category`
and persist. -/
def add_category (categories : List Category) (name : String) (budget_limit : ℚ) :
    AddCategoryOutcome :=
  if categories.any (fun cat => pyLower cat.name = pyLower name) then
    { categories := categories, savedFile := none, duplicate := true }
  else
    let newCategories := categories ++ [Category.init name budget_limit]
    { categories := newCategories, savedFile := some newCategories, duplicate := false }

/-- The data carried by the text of `MonthlyReport.generate_report`
(lines 139-156): the month label, the grand total, and the category
breakdown in insertion order. -/
structure MonthlyReportData where
  month : String
  total : ℚ
  breakdown : List (String × ℚ)
deriving DecidableEq, Repr

/-- The filter of line 140:
`[e for e in self.expenses if e.get_date().startswith(self.month)]`. -/
def monthlyExpenses (expenses : List ExpenseRecord) (month : String) : List ExpenseRecord :=
  expenses.filter (fun e => month.isPrefixOf e.get_date)

/-- Embeds `MonthlyReport.generate_report` (lines 139-156): filter to the
month, total by `sum(...)`, build the per-category dict with
`categories[cat] = categories.get(cat, 0) + exp.get_amount()`. -/
def MonthlyReport.generate (expenses : List ExpenseRecord) (month : String) :
    MonthlyReportData :=
  let monthly := monthlyExpenses expenses month
  { month := month,
    total := pySum (monthly.map (fun e => e.get_amount)),
    breakdown := monthly.foldl (fun acc e => dictAdd acc e.get_category e.get_amount) [] }

/-- The budget line of one category section of the category report:
`Remaining: ...` with the ✅ marker, or `Over Budget: ...` with the
⚠️ marker. -/
inductive BudgetLine where
  | remaining (amount : ℚ)
  | overBudget (amount : ℚ)
deriving DecidableEq, Repr

/-- One per-category section of `CategoryReport.generate_report`:
name, total spent, budget limit, and the optional budget line. -/
structure CategorySection where
  name : String
  totalSpent : ℚ
  budgetLimit : ℚ
  budgetLine : Option BudgetLine
deriving DecidableEq, Repr

/-- One iteration of the loop of `CategoryReport.generate_report`
(lines 167-182): exact-match filter, `sum(...)` total, and the budget
comparison emitting the `Remaining`/`Over Budget` line only when
`budget_limit > 0`. -/
def categorySection (expenses : List ExpenseRecord) (category : Category) : CategorySection :=
  let cat_expenses := expenses.filter (fun e => e.get_category = category.name)
  let total := pySum (cat_expenses.map (fun e => e.get_amount))
  let budget_limit := category.budget_limit
  { name := category.name, totalSpent := total, budgetLimit := budget_limit,
    budgetLine :=
      if budget_limit > 0 then
        let remaining := budget_limit - total
        if remaining ≥ 0 then some (.remaining remaining)
        else some (.overBudget |remaining|)
      else none }

/-- Embeds `CategoryReport.generate_report` (lines 163-184): one section per
known category, in category-sequence order. -/
def CategoryReport.generate (expenses : List ExpenseRecord) (categories : List Category) :
    List CategorySection :=
  categories.map (categorySection expenses)

/-- State of one JSON store file: missing, present but unparseable, or
present with parsed content. -/
inductive FileState (α : Type) where
  | absent
  | corrupt
  | parsed (data : α)
deriving DecidableEq, Repr

/-- The default category seed of `_initialize_files` (lines 206-215). -/
def defaultCategories : List CategoryDict :=
  [{ name := "Food", budget_limit := 5000 },
   { name := "Travel", budget_limit := 3000 },
   { name := "Entertainment", budget_limit := 2000 },
   { name := "Shopping", budget_limit := 4000 },
   { name := "Bills", budget_limit := 6000 },
   { name := "Healthcare", budget_limit := 1500 },
   { name := "Education", budget_limit := 3000 },
   { name := "Other", budget_limit := 1000 }]

/-- The expense-file half of `_initialize_files` (lines 199-202): an
absent file is created holding the empty collection; an existing file
is left untouched. -/
def initFilesExpenses : FileState (List ExpenseDict) → FileState (List ExpenseDict)
  | .absent => .parsed []
  | s => s

/-- The category-file half of `_initialize_files` (lines 205-218): an
absent file is created holding the eight default categories; an
existing file is left untouched. -/
def initFilesCategories : FileState (List CategoryDict) → FileState (List CategoryDict)
  | .absent => .parsed defaultCategories
  | s => s

/-- Embeds `_load_expenses` (lines 225-242): on a successful parse, rebuild
each record through the `'type'` dispatch; on any exception (missing
file or unparseable JSON) reset the in-memory list to empty AND rewrite
the file to an empty collection.  Returns the in-memory list and the
file state after the call. -/
def loadExpensesStep (today : String) :
    FileState (List ExpenseDict) → List ExpenseRecord × FileState (List ExpenseDict)
  | .parsed data => (data.map (fun d => loadExpenseItem d today), .parsed data)
  | .corrupt => ([], .parsed [])
  | .absent => ([], .parsed [])

/-- Embeds `_load_categories` (lines 244-253): on a successful parse, rebuild
each `Category`; on any exception reset the in-memory list to empty but
leave the file as it is (no rewrite, no reseeding). -/
def loadCategoriesStep :
    FileState (List CategoryDict) → List Category × FileState (List CategoryDict)
  | .parsed data => (data.map Category.from_dict, .parsed data)
  | .corrupt => ([], .corrupt)
  | .absent => ([], .absent)

/-- The state reached by `ExpenseManager.__init__`: both in-memory
collections and both file states. -/
structure InitResult where
  expenses : List ExpenseRecord
  categories : List Category
  expensesFile : FileState (List ExpenseDict)
  categoriesFile : FileState (List CategoryDict)
deriving DecidableEq, Repr

/-- Embeds `ExpenseManager.__init__` (lines 188-194): `_initialize_files` on
both stores, then `_load_data` = `_load_expenses` + `_load_categories`. -/
def managerInit (ef : FileState (List ExpenseDict)) (cf : FileState (List CategoryDict))
    (today : String) : InitResult :=
  let ef1 := initFilesExpenses ef
  let cf1 := initFilesCategories cf
  let el := loadExpensesStep today ef1
  let cl := loadCategoriesStep cf1
  { expenses := el.1, categories := cl.1, expensesFile := el.2, categoriesFile := cl.2 }

/-! ## Specification-side descriptions of the dict-building pattern

The reports and `get_category_summary` build Python dicts by repeated
`d[k] = d.get(k, 0) + v`.  The following definitions describe the
result declaratively: the keys in order of first appearance, each
mapped to the sum of the values contributed under that key. -/

/-- Append a key if it is not present yet (one step of collecting keys
in order of first appearance). -/
def keyInsert (ks : List String) (c : String) : List String :=
  if c ∈ ks then ks else ks ++ [c]

/-- The keys of a list, in order of first appearance. -/
def firstAppearances (cs : List String) : List String :=
  cs.foldl keyInsert []

/-- The keys of `cs` not already in `ks`, in order of first appearance. -/
def newKeys (ks : List String) : List String → List String
  | [] => []
  | c :: cs => if c ∈ ks then newKeys ks cs else c :: newKeys (ks ++ [c]) cs

/-- Sum of the values contributed under key `c` by the elements of `l`,
with `key`/`val` projections. -/
def catSumF {α : Type} (key : α → String) (val : α → ℚ) (l : List α) (c : String) : ℚ :=
  ((l.filter (fun e => key e = c)).map val).sum

/-- Total amount spent in category `c` among the records `l` (exact
case-sensitive category match). -/
def catSum (l : List ExpenseRecord) (c : String) : ℚ :=
  catSumF ExpenseRecord.get_category ExpenseRecord.get_amount l c

theorem catSumF_nil {α : Type} (key : α → String) (val : α → ℚ) (c : String) :
    catSumF key val [] c = 0 := rfl

theorem catSumF_cons {α : Type} (key : α → String) (val : α → ℚ) (e : α) (l : List α)
    (c : String) :
    catSumF key val (e :: l) c =
      if key e = c then val e + catSumF key val l c else catSumF key val l c := by
  by_cases h : key e = c <;> simp [catSumF, List.filter_cons, h]

theorem newKeys_not_mem :
    ∀ (cs ks : List String) (k : String), k ∈ newKeys ks cs → k ∉ ks := by
  intro cs
  induction cs with
  | nil => intro ks k hk; simp [newKeys] at hk
  | cons c cs ih =>
    intro ks k hk
    rw [newKeys] at hk
    by_cases hc : c ∈ ks
    · rw [if_pos hc] at hk
      exact ih ks k hk
    · rw [if_neg hc] at hk
      rcases List.mem_cons.mp hk with rfl | hk
      · exact hc
      · intro hks
        exact ih (ks ++ [c]) k hk (List.mem_append_left _ hks)

theorem foldl_keyInsert (cs : List String) :
    ∀ ks : List String, cs.foldl keyInsert ks = ks ++ newKeys ks cs := by
  induction cs with
  | nil => intro ks; simp [newKeys]
  | cons c cs ih =>
    intro ks
    rw [List.foldl_cons, newKeys]
    by_cases hc : c ∈ ks
    · rw [if_pos hc]
      have : keyInsert ks c = ks := if_pos hc
      rw [this, ih]
    · rw [if_neg hc]
      have : keyInsert ks c = ks ++ [c] := if_neg hc
      rw [this, ih, List.append_assoc]
      rfl

theorem mem_foldl_keyInsert (cs : List String) :
    ∀ (ks : List String) (c : String), c ∈ cs → c ∈ cs.foldl keyInsert ks := by
  induction cs with
  | nil => intro ks c hc; simp at hc
  | cons c' cs ih =>
    intro ks c hc
    rw [List.foldl_cons]
    rcases List.mem_cons.mp hc with rfl | hc
    · have hmem : c ∈ keyInsert ks c := by
        rw [keyInsert]; split
        · assumption
        · exact List.mem_append_right _ (List.mem_singleton_self c)
      rw [foldl_keyInsert]
      exact List.mem_append_left _ hmem
    · exact ih _ c hc

theorem mem_firstAppearances_of_mem {cs : List String} {c : String} (hc : c ∈ cs) :
    c ∈ firstAppearances cs :=
  mem_foldl_keyInsert cs [] c hc

/-- Fundamental description of the `d[k] = d.get(k, 0) + v` fold: the
entries already in the accumulator are each increased by their key's
contribution from `l`, and the keys of `l` not yet present are appended
in order of first appearance, each with its total contribution. -/
theorem foldl_dictAdd {α : Type} (key : α → String) (val : α → ℚ) :
    ∀ (l : List α) (acc : List (String × ℚ)),
      l.foldl (fun a e => dictAdd a (key e) (val e)) acc =
        acc.map (fun p => (p.1, p.2 + catSumF key val l p.1)) ++
          (newKeys (acc.map (fun p => p.1)) (l.map key)).map
            (fun c => (c, catSumF key val l c)) := by
  intro l
  induction l with
  | nil =>
    intro acc
    simp [catSumF_nil, newKeys]
  | cons e rest ih =>
    intro acc
    rw [List.foldl_cons]
    by_cases hmem : acc.any (fun p => p.1 = key e)
    · -- the key is already present: every matching entry is updated in place
      have hstep : dictAdd acc (key e) (val e) =
          acc.map (fun p => if p.1 = key e then (p.1, p.2 + val e) else p) := by
        rw [dictAdd, if_pos hmem]
      have hkeys : (acc.map (fun p => if p.1 = key e then (p.1, p.2 + val e) else p)).map
          (fun p => p.1) = acc.map (fun p => p.1) := by
        rw [List.map_map]
        apply List.map_congr_left
        intro p _
        by_cases hp : p.1 = key e <;> simp [hp]
      have hkeymem : key e ∈ acc.map (fun p => p.1) := by
        rcases List.any_eq_true.mp hmem with ⟨p, hp, hpe⟩
        have : p.1 = key e := of_decide_eq_true hpe
        exact this ▸ List.mem_map_of_mem (fun p => p.1) hp
      have hmap1 : (acc.map (fun p => if p.1 = key e then (p.1, p.2 + val e) else p)).map
            (fun p => (p.1, p.2 + catSumF key val rest p.1)) =
          acc.map (fun p => (p.1, p.2 + catSumF key val (e :: rest) p.1)) := by
        rw [List.map_map]
        apply List.map_congr_left
        intro p _
        by_cases hp : p.1 = key e
        · simp only [Function.comp_apply, if_pos hp]
          rw [catSumF_cons, if_pos hp.symm]
          rw [add_assoc]
        · simp only [Function.comp_apply, if_neg hp]
          rw [catSumF_cons, if_neg (fun hc => hp hc.symm)]
      have hnk : newKeys (acc.map (fun p => p.1)) ((e :: rest).map key) =
          newKeys (acc.map (fun p => p.1)) (rest.map key) := by
        rw [List.map_cons, newKeys, if_pos hkeymem]
      have hmap2 : (newKeys (acc.map (fun p => p.1)) (rest.map key)).map
            (fun c => (c, catSumF key val rest c)) =
          (newKeys (acc.map (fun p => p.1)) (rest.map key)).map
            (fun c => (c, catSumF key val (e :: rest) c)) := by
        apply List.map_congr_left
        intro k hk
        have hne : key e ≠ k := fun hek =>
          newKeys_not_mem _ _ _ hk (hek ▸ hkeymem)
        rw [catSumF_cons, if_neg hne]
      rw [hstep, ih, hkeys, hmap1, hmap2, hnk]
    · -- the key is new: it is appended at the end of the dict
      have hstep : dictAdd acc (key e) (val e) = acc ++ [(key e, val e)] := by
        rw [dictAdd, if_neg hmem]
      have hkeynotmem : key e ∉ acc.map (fun p => p.1) := by
        intro hk
        rcases List.mem_map.mp hk with ⟨p, hp, hpe⟩
        exact hmem (List.any_eq_true.mpr ⟨p, hp, decide_eq_true hpe⟩)
      have h1 : (acc ++ [(key e, val e)]).map (fun p => p.1) =
          acc.map (fun p => p.1) ++ [key e] := by
        rw [List.map_append, List.map_cons, List.map_nil]
      have h2 : newKeys (acc.map (fun p => p.1)) ((e :: rest).map key) =
          key e :: newKeys (acc.map (fun p => p.1) ++ [key e]) (rest.map key) := by
        rw [List.map_cons, newKeys, if_neg hkeynotmem]
      have h3 : (acc ++ [(key e, val e)]).map
            (fun p => (p.1, p.2 + catSumF key val rest p.1)) =
          acc.map (fun p => (p.1, p.2 + catSumF key val (e :: rest) p.1)) ++
            [(key e, catSumF key val (e :: rest) (key e))] := by
        rw [List.map_append]
        congr 1
        · apply List.map_congr_left
          intro p hp
          have hne : key e ≠ p.1 := fun hek =>
            hkeynotmem (hek ▸ List.mem_map_of_mem (fun p => p.1) hp)
          rw [catSumF_cons, if_neg hne]
        · rw [List.map_cons, List.map_nil]
          dsimp only
          rw [catSumF_cons, if_pos rfl]
      have h4 : (newKeys (acc.map (fun p => p.1) ++ [key e]) (rest.map key)).map
            (fun c => (c, catSumF key val rest c)) =
          (newKeys (acc.map (fun p => p.1) ++ [key e]) (rest.map key)).map
            (fun c => (c, catSumF key val (e :: rest) c)) := by
        apply List.map_congr_left
        intro k hk
        have hne : key e ≠ k := fun hek =>
          newKeys_not_mem _ _ _ hk
            (hek ▸ List.mem_append_right _ (List.mem_singleton_self (key e)))
        rw [catSumF_cons, if_neg hne]
      rw [hstep, ih, h1, h2, h3, h4, List.map_cons, List.append_assoc,
        List.singleton_append]

/-- The dict fold starting from the empty dict produces exactly the
keys in order of first appearance, each with its total contribution. -/
theorem foldl_dictAdd_nil {α : Type} (key : α → String) (val : α → ℚ) (l : List α) :
    l.foldl (fun a e => dictAdd a (key e) (val e)) [] =
      (firstAppearances (l.map key)).map (fun c => (c, catSumF key val l c)) := by
  rw [foldl_dictAdd, firstAppearances, foldl_keyInsert]
  simp

/-- Lemma: `get_category_summary` described declaratively. -/
theorem get_category_summary_spec (expenses : List ExpenseRecord) :
    get_category_summary expenses =
      (firstAppearances (expenses.map (fun e => e.get_category))).map
        (fun c => (c, catSum expenses c)) := by
  rw [get_category_summary]
  exact foldl_dictAdd_nil ExpenseRecord.get_category ExpenseRecord.get_amount expenses

theorem foldl_add_eq (l : List ℚ) : ∀ a : ℚ, l.foldl (· + ·) a = a + l.sum := by
  induction l with
  | nil => intro a; simp
  | cons x xs ih =>
    intro a
    rw [List.foldl_cons, ih, List.sum_cons]
    ring

theorem pySum_eq_sum (l : List ℚ) : pySum l = l.sum := by
  rw [pySum, foldl_add_eq]
  ring

/-! ## Sample data used by witnesses and counterexamples -/

/-- A concrete regular expense used in concrete instantiations. -/
def sampleExpense : ExpenseRecord :=
  .regular { amount := 100, category := "Food", description := "lunch", date := "2024-05-10" }

/-- A second concrete regular expense. -/
def sampleExpense2 : ExpenseRecord :=
  .regular { amount := 250, category := "Bills", description := "power", date := "2024-05-11" }

/-- A concrete recurring expense. -/
def sampleRecurring : ExpenseRecord :=
  .recurring { amount := 99, category := "Bills", description := "", date := "2024-05-01" }
    "weekly"

/-- A concrete expense in a category no `Category` entity carries. -/
def sampleStray : ExpenseRecord :=
  .regular { amount := 40, category := "Groceries", description := "", date := "2024-05-02" }

/-- A concrete category. -/
def sampleCategory : Category := Category.init "Food" 5000

/-! ## The claims -/

/-- Claim C1 (corrected).  The claim says an unrecognized frequency such
as `"biweekly"` is normalized to `"monthly"` at construction time
inside the model.  It is not: `RecurringExpense.__init__` stores the
frequency verbatim, as this concrete construction shows. -/
theorem C1_counterexample :
    (RecurringExpense.init 99 "Bills" "" "" "2024-05-10" "biweekly").get_frequency
        = some "biweekly" ∧
    (RecurringExpense.init 99 "Bills" "" "" "2024-05-10" "biweekly").get_frequency
        ≠ some "monthly" := by
  constructor
  · rfl
  · decide

/-- Claim C1 (amended).  `RecurringExpense.__init__` stores whatever
frequency value it is given, for every input; the normalization of
values outside {daily, weekly, monthly, yearly} to `"monthly"` happens
in the recurring-expense input path of the UI, before the constructor
is called, as the sanitisation of `"biweekly"` shows. -/
theorem C1_frequency_stored_verbatim (amount : ℚ)
    (category description date today frequency : String) :
    (RecurringExpense.init amount category description date today frequency).get_frequency
        = some frequency ∧
    uiFrequency "biweekly" = "monthly" := by
  exact ⟨rfl, by decide⟩

/-- Claim C2 (corrected).  The claim says `delete_expense(i)` returns the
removed entity to the caller.  The method body has no `return`
statement: it returns `None` on every path, so at index 0 of a
one-element ledger the removed entity is not the return value. -/
theorem C2_counterexample :
    (delete_expense [sampleExpense] 0).returned = none ∧
    ¬(delete_expense [sampleExpense] 0).returned = some sampleExpense := by
  constructor
  · rfl
  · decide

/-- Claim C2 (amended).  For every valid index, `delete_expense(i)`
removes exactly the entity previously at position `i` (the result is
`take i ++ drop (i+1)`), shrinks the ledger by exactly one, persists
the new sequence, and reports the removed entity in its success
message — but returns `None` rather than the removed entity. -/
theorem C2_delete_valid_index (expenses : List ExpenseRecord) (index : Int)
    (h0 : 0 ≤ index) (h1 : index < (expenses.length : Int)) :
    ∃ d, expenses[index.toNat]? = some d ∧
      delete_expense expenses index =
        { expenses := expenses.eraseIdx index.toNat,
          savedFile := some (expenses.eraseIdx index.toNat),
          message := .deleted d, returned := none } ∧
      expenses.eraseIdx index.toNat
          = expenses.take index.toNat ++ expenses.drop (index.toNat + 1) ∧
      (delete_expense expenses index).expenses.length + 1 = expenses.length := by
  have hn : index.toNat < expenses.length := by omega
  refine ⟨expenses.get ⟨index.toNat, hn⟩, ?_, ?_, ?_, ?_⟩
  · rw [List.getElem?_eq_getElem hn]
    rfl
  · rw [delete_expense, dif_pos ⟨h0, h1⟩]
  · exact List.eraseIdx_eq_take_drop_succ expenses index.toNat
  · rw [delete_expense, dif_pos ⟨h0, h1⟩]
    dsimp only
    rw [List.length_eraseIdx_of_lt hn]
    omega

/-- Witness for **C2** (amended): deleting index 0 of a two-element
ledger keeps exactly the second entity, persists it, and reports the
first entity as deleted. -/
theorem C2_witness :
    (delete_expense [sampleExpense, sampleExpense2] 0).expenses = [sampleExpense2] ∧
    (delete_expense [sampleExpense, sampleExpense2] 0).savedFile
        = some [sampleExpense2] ∧
    (delete_expense [sampleExpense, sampleExpense2] 0).message
        = .deleted sampleExpense := by
  obtain ⟨d, hd, heq, -, -⟩ :=
    C2_delete_valid_index [sampleExpense, sampleExpense2] 0 (by decide) (by decide)
  have hds : sampleExpense = d := Option.some.inj hd
  rw [heq, ← hds]
  exact ⟨rfl, rfl, rfl⟩

/-- Claim C3 (confirmed).  `delete_expense` on an out-of-range index
(negative or at least the length) performs no removal, writes nothing
to the store, reports the invalid-index error, and leaves the expense
sequence exactly as it was. -/
theorem C3_delete_out_of_range (expenses : List ExpenseRecord) (index : Int)
    (h : index < 0 ∨ (expenses.length : Int) ≤ index) :
    delete_expense expenses index =
      { expenses := expenses, savedFile := none, message := .invalidIndex,
        returned := none } := by
  have hng : ¬(0 ≤ index ∧ index < (expenses.length : Int)) := by
    rcases h with h | h <;> omega
  rw [delete_expense, dif_neg hng]

/-- Witness for **C3**: deleting at index 5 of a one-element ledger
leaves it unchanged and reports the error. -/
theorem C3_witness :
    delete_expense [sampleExpense] 5 =
      { expenses := [sampleExpense], savedFile := none, message := .invalidIndex,
        returned := none } :=
  C3_delete_out_of_range [sampleExpense] 5 (by decide)

/-- Claim C8 (confirmed).  `get_total_spending` is the sum of
`get_amount` over all current expenses, and `0` on the empty ledger. -/
theorem C8_total_spending (expenses : List ExpenseRecord) :
    get_total_spending expenses = (expenses.map (fun e => e.get_amount)).sum ∧
    get_total_spending [] = 0 := by
  constructor
  · rw [get_total_spending, pySum_eq_sum]
  · rfl

/-- Claim C9 (confirmed).  When the categories store parses to garbage,
`_load_categories` resets the in-memory collection to empty, does not
rewrite the categories file, and the default seed is written by
`_initialize_files` only when the categories file is absent — so a
manager built over a corrupt categories store starts with zero
categories and the corrupt file still on disk. -/
theorem C9_corrupt_categories_not_reseeded (ef : FileState (List ExpenseDict))
    (today : String) :
    (managerInit ef .corrupt today).categories = [] ∧
    (managerInit ef .corrupt today).categoriesFile = .corrupt ∧
    initFilesCategories .absent = .parsed defaultCategories ∧
    initFilesCategories .corrupt = .corrupt ∧
    (∀ d : List CategoryDict, initFilesCategories (.parsed d) = .parsed d) := by
  refine ⟨?_, ?_, rfl, rfl, fun d => rfl⟩ <;> cases ef <;> rfl

/-- Claim C4 (confirmed).  Serializing a regular expense, a recurring
expense, or a category to its flat dictionary and deserializing it
through the type-discriminant dispatch yields an entity equal to the
original in every field (amount, category, description, date,
discriminant, frequency; name and budget limit for categories).  The
hypothesis reflects the §3 data-model invariant that a stored date is a
non-empty ISO string: the constructor treats an empty (falsy) date as
"use today's date". -/
theorem C4_round_trip (r : ExpenseRecord) (c : Category) (today : String)
    (h : r.get_date ≠ "") :
    loadExpenseItem r.to_dict today = r ∧ Category.from_dict c.to_dict = c := by
  constructor
  · cases r with
    | regular e =>
      have hd : e.date ≠ "" := h
      simp [loadExpenseItem, ExpenseRecord.to_dict, Expense.from_dict,
        RecurringExpense.from_dict, Expense.init, hd]
    | recurring e f =>
      have hd : e.date ≠ "" := h
      simp [loadExpenseItem, ExpenseRecord.to_dict, Expense.from_dict,
        RecurringExpense.from_dict, Expense.init, hd]
  · rfl

/-- Witness for **C4**: a concrete recurring expense and a concrete
category survive the round trip unchanged. -/
theorem C4_witness :
    loadExpenseItem sampleRecurring.to_dict "2024-01-01" = sampleRecurring ∧
    Category.from_dict sampleCategory.to_dict = sampleCategory :=
  C4_round_trip sampleRecurring sampleCategory "2024-01-01" (by decide)

/-- Claim C5 (confirmed).  `add_category` with a name whose lowercase
form matches an existing category's lowercase name reports the
duplicate and leaves the collection (and the store) untouched; starting
from a collection with no case-insensitive match, adding a name and
then a name differing only by case leaves exactly one stored category
matching that name case-insensitively. -/
theorem C5_add_category_case_insensitive (categories : List Category)
    (name1 name2 : String) (limit1 limit2 : ℚ) :
    ((∃ c ∈ categories, pyLower c.name = pyLower name1) →
      add_category categories name1 limit1 =
        { categories := categories, savedFile := none, duplicate := true }) ∧
    (pyLower name1 = pyLower name2 →
      (∀ c ∈ categories, pyLower c.name ≠ pyLower name1) →
      (((add_category (add_category categories name1 limit1).categories
            name2 limit2).categories.filter
          (fun c => pyLower c.name = pyLower name1)).length = 1)) := by
  constructor
  · rintro ⟨c, hc, he⟩
    have hany : (categories.any (fun cat => pyLower cat.name = pyLower name1)) = true :=
      List.any_eq_true.mpr ⟨c, hc, decide_eq_true he⟩
    rw [add_category, if_pos hany]
  · intro h12 hnone
    have hany1 : (categories.any (fun cat => pyLower cat.name = pyLower name1)) = false :=
      List.any_eq_false.mpr fun c hc hd => hnone c hc (of_decide_eq_true hd)
    have hinner : (add_category categories name1 limit1).categories
        = categories ++ [Category.init name1 limit1] := by
      rw [add_category, if_neg (by rw [hany1]; exact Bool.false_ne_true)]
    have hany2 : ((categories ++ [Category.init name1 limit1]).any
        (fun cat => pyLower cat.name = pyLower name2)) = true :=
      List.any_eq_true.mpr ⟨Category.init name1 limit1,
        List.mem_append_right _ (List.mem_singleton_self _), decide_eq_true h12⟩
    have houter : (add_category (categories ++ [Category.init name1 limit1])
        name2 limit2).categories = categories ++ [Category.init name1 limit1] := by
      rw [add_category, if_pos hany2]
    rw [hinner, houter, List.filter_append]
    have h5 : categories.filter (fun c => pyLower c.name = pyLower name1) = [] :=
      List.filter_eq_nil_iff.mpr fun c hc hd => hnone c hc (of_decide_eq_true hd)
    have h6 : [Category.init name1 limit1].filter
        (fun c => pyLower c.name = pyLower name1) = [Category.init name1 limit1] :=
      List.filter_cons_of_pos (decide_eq_true rfl)
    rw [h5, h6]
    rfl

/-- Witness for **C5**: with an existing `"Food"` category, adding
`"food"` reports a duplicate and does not mutate; adding `"food"` then
`"Food"` to an empty collection stores exactly one matching category. -/
theorem C5_witness :
    add_category [Category.init "Food" 5000] "food" 0 =
      { categories := [Category.init "Food" 5000], savedFile := none,
        duplicate := true } ∧
    ((add_category (add_category [] "food" 5).categories "Food" 7).categories.filter
        (fun c => pyLower c.name = pyLower "food")).length = 1 := by
  constructor
  · exact (C5_add_category_case_insensitive [Category.init "Food" 5000]
      "food" "x" 0 0).1 ⟨Category.init "Food" 5000, List.mem_singleton_self _, by decide⟩
  · exact (C5_add_category_case_insensitive [] "food" "Food" 5 7).2 (by decide)
      (by intro c hc; simp at hc)

/-- Lemma: `categorySection` read back field-wise: the budget line is computed
from the limit and the spent total exactly as in lines 177-182. -/
theorem categorySection_budgetLine (expenses : List ExpenseRecord) (c : Category) :
    (categorySection expenses c).budgetLine =
      if c.budget_limit > 0 then
        if c.budget_limit - (categorySection expenses c).totalSpent ≥ 0 then
          some (.remaining (c.budget_limit - (categorySection expenses c).totalSpent))
        else some (.overBudget |c.budget_limit - (categorySection expenses c).totalSpent|)
      else none := rfl

/-- Claim C6 (confirmed).  In every section of the category-scoped
report: a positive budget limit with spending within it yields the
within-budget line carrying the non-negative remainder; a positive
limit with spending beyond it yields the over-budget line carrying the
absolute value of the negative remainder; a zero limit yields no
budget line at all. -/
theorem C6_category_report_budget_lines (expenses : List ExpenseRecord)
    (categories : List Category) (s : CategorySection)
    (hs : s ∈ CategoryReport.generate expenses categories) :
    (0 < s.budgetLimit → s.totalSpent ≤ s.budgetLimit →
        s.budgetLine = some (.remaining (s.budgetLimit - s.totalSpent))) ∧
    (0 < s.budgetLimit → s.budgetLimit < s.totalSpent →
        s.budgetLine = some (.overBudget |s.budgetLimit - s.totalSpent|)) ∧
    (s.budgetLimit = 0 → s.budgetLine = none) := by
  obtain ⟨c, hc, rfl⟩ := List.mem_map.mp hs
  have hlim : (categorySection expenses c).budgetLimit = c.budget_limit := rfl
  refine ⟨?_, ?_, ?_⟩
  · intro h1 h2
    have h1' : c.budget_limit > 0 := h1
    have h2' : (categorySection expenses c).totalSpent ≤ c.budget_limit := h2
    rw [categorySection_budgetLine, if_pos h1', if_pos (sub_nonneg.mpr h2'), hlim]
  · intro h1 h2
    have h1' : c.budget_limit > 0 := h1
    have h2' : c.budget_limit < (categorySection expenses c).totalSpent := h2
    rw [categorySection_budgetLine, if_pos h1',
      if_neg (not_le.mpr (sub_neg.mpr h2')), hlim]
  · intro h0
    have h0' : c.budget_limit = 0 := h0
    rw [categorySection_budgetLine, if_neg (by rw [h0']; exact lt_irrefl 0)]

/-- A concrete expense list spending 4000 in `"Food"`. -/
def sampleBudgetExpenses : List ExpenseRecord :=
  [.regular { amount := 4000, category := "Food", description := "", date := "2024-05-01" }]

/-- Witness for **C6**: `"Food"` with limit 5000 and 4000 spent gets
the within-budget line with remainder 1000. -/
theorem C6_witness :
    (categorySection sampleBudgetExpenses sampleCategory).budgetLine
        = some (.remaining 1000) := by
  have htotal : (categorySection sampleBudgetExpenses sampleCategory).totalSpent = 4000 := by
    simp [categorySection, sampleBudgetExpenses, sampleCategory, Category.init, pySum,
      ExpenseRecord.get_category, ExpenseRecord.get_amount]
  have hlim : (categorySection sampleBudgetExpenses sampleCategory).budgetLimit = 5000 := rfl
  have h := (C6_category_report_budget_lines sampleBudgetExpenses [sampleCategory]
    (categorySection sampleBudgetExpenses sampleCategory)
    (List.mem_map_of_mem (categorySection sampleBudgetExpenses)
      (List.mem_singleton_self sampleCategory))).1
    (by rw [hlim]; norm_num) (by rw [htotal, hlim]; norm_num)
  rw [h, htotal, hlim]
  norm_num

/-- Claim C7 (confirmed).  The time-scoped report is computed over
exactly the expenses whose date string has the month key as a prefix;
its grand total is the sum of their amounts; its category breakdown
lists the categories of the filtered expenses in order of first
appearance, each with the sum of the filtered amounts in that
category. -/
theorem C7_monthly_report (expenses : List ExpenseRecord) (month : String) :
    monthlyExpenses expenses month
        = expenses.filter (fun e => month.isPrefixOf e.get_date) ∧
    (MonthlyReport.generate expenses month).month = month ∧
    (MonthlyReport.generate expenses month).total
        = ((monthlyExpenses expenses month).map (fun e => e.get_amount)).sum ∧
    (MonthlyReport.generate expenses month).breakdown
        = (firstAppearances ((monthlyExpenses expenses month).map
              (fun e => e.get_category))).map
            (fun c => (c, catSum (monthlyExpenses expenses month) c)) := by
  refine ⟨rfl, rfl, ?_, ?_⟩
  · show pySum ((monthlyExpenses expenses month).map (fun e => e.get_amount)) = _
    exact pySum_eq_sum _
  · show (monthlyExpenses expenses month).foldl
        (fun acc e => dictAdd acc e.get_category e.get_amount) [] = _
    exact foldl_dictAdd_nil ExpenseRecord.get_category ExpenseRecord.get_amount _

/-- Claim C10 (confirmed).  An expense whose category name matches no
`Category` entity's name exactly contributes to no section of the
category-scoped report (removing it leaves the whole report unchanged),
while `get_total_spending` still counts its amount and
`get_category_summary` still carries an entry for its category whose
value includes its amount. -/
theorem C10_stray_category_excluded (l1 l2 : List ExpenseRecord) (e : ExpenseRecord)
    (categories : List Category) (h : ∀ c ∈ categories, c.name ≠ e.get_category) :
    CategoryReport.generate (l1 ++ e :: l2) categories
        = CategoryReport.generate (l1 ++ l2) categories ∧
    get_total_spending (l1 ++ e :: l2) = get_total_spending (l1 ++ l2) + e.get_amount ∧
    (e.get_category, catSum (l1 ++ e :: l2) e.get_category)
        ∈ get_category_summary (l1 ++ e :: l2) ∧
    catSum (l1 ++ e :: l2) e.get_category
        = catSum (l1 ++ l2) e.get_category + e.get_amount := by
  refine ⟨?_, ?_, ?_, ?_⟩
  · apply List.map_congr_left
    intro c hc
    have hpe : ¬(decide (e.get_category = c.name) = true) := by
      simp only [decide_eq_true_eq]
      exact fun heq => h c hc heq.symm
    have hfilter : (l1 ++ e :: l2).filter (fun x => x.get_category = c.name)
        = (l1 ++ l2).filter (fun x => x.get_category = c.name) := by
      rw [List.filter_append, List.filter_append, List.filter_cons, if_neg hpe]
    simp only [categorySection, hfilter]
  · rw [get_total_spending, get_total_spending, pySum_eq_sum, pySum_eq_sum,
      List.map_append, List.map_append, List.map_cons, List.sum_append,
      List.sum_append, List.sum_cons]
    ring
  · rw [get_category_summary_spec]
    exact List.mem_map_of_mem (fun c => (c, catSum (l1 ++ e :: l2) c))
      (mem_firstAppearances_of_mem
        (List.mem_map_of_mem ExpenseRecord.get_category
          (List.mem_append_right l1 (List.mem_cons_self e l2))))
  · have hpos : decide (e.get_category = e.get_category) = true := decide_eq_true rfl
    rw [catSum, catSum, catSumF, catSumF, List.filter_append, List.filter_append,
      List.filter_cons, if_pos hpos, List.map_append, List.map_append,
      List.map_cons, List.sum_append, List.sum_append, List.sum_cons]
    ring

/-- Witness for **C10**: a `"Groceries"` expense with no matching
category leaves the category report unchanged but is still counted in
the total. -/
theorem C10_witness :
    CategoryReport.generate [sampleStray] [sampleCategory]
        = CategoryReport.generate [] [sampleCategory] ∧
    get_total_spending [sampleStray] = get_total_spending [] + sampleStray.get_amount := by
  have h := C10_stray_category_excluded [] [] sampleStray [sampleCategory] (by decide)
  exact ⟨h.1, h.2.1⟩
